import Mathlib

/-!
# Verification of the waila-cli classification-and-projection engine

Shallow embedding of `src/main.rs` of the `waila-cli` repository.

The program classifies a user-supplied string as one of eight
bitcoin/lightning payment descriptor kinds, projects a fixed set of
optional fields out of the parsed value, and assembles a JSON record in
either a full shape (all keys, absent slots as explicit null) or a sparse
shape (only resolved keys).

External collaborators (the `bitcoin_waila` payment parser, the `bitcoin`
amount type, the `nostr` NIP-19 encoder, `serde_json`) are modelled at
their interfaces:

* `PaymentParams` is modelled as its variant tag together with the results
  of its ten documented accessors (each accessor independently returns
  present-or-absent; string-typed results are modelled as the already
  rendered strings the program obtains via `to_string()`).
* the parser's amount accessor is modelled at millisatoshi precision
  (the finest granularity a lightning amount can carry), with `to_sat`
  truncating to whole satoshis as its documentation states; the local
  `bitcoin::Amount` holds whole satoshis and `from_sat` injects them.
* `XOnlyPublicKey` is a 32-byte (64 hex digit) value; `to_string` renders
  the canonical lowercase hex and `from_str` parses exactly such strings.
* NIP-19 `to_bech32` is a fallible external function; the development is
  parameterised over it (`Nip19`).
* `serde_json::Map` is an insertion-ordered string-keyed map, modelled as
  an association list whose `insert` replaces an existing binding in place;
  JSON text serialization is out of scope, so a successful run carries the
  assembled map itself.
-/

/-- JSON values as the program uses them: null, strings, and string-keyed
objects (the `nostr` sub-record). -/
inductive JValue where
  | null
  | str (s : String)
  | obj (fields : List (String × JValue))
deriving Repr

/-- `serde_json::Map<String, Value>`: an association list of key/value
pairs. -/
abbrev JMap := List (String × JValue)

namespace JMap

/-- `Map::insert`: replace the binding of `k` in place if present,
otherwise append it. -/
def insert (m : JMap) (k : String) (v : JValue) : JMap :=
  match m with
  | [] => [(k, v)]
  | (k', v') :: t => if k' = k then (k, v) :: t else (k', v') :: insert t k v

/-- Look a key up in the map. -/
def lookup (m : JMap) (k : String) : Option JValue :=
  match m with
  | [] => none
  | (k', v') :: t => if k' = k then some v' else lookup t k

theorem lookup_insert_self (m : JMap) (k : String) (v : JValue) :
    lookup (insert m k v) k = some v := by
  induction m with
  | nil => simp [insert, lookup]
  | cons hd t ih =>
    obtain ⟨k', v'⟩ := hd
    by_cases h : k' = k
    · simp [insert, lookup, h]
    · simp [insert, lookup, h, ih]

theorem lookup_insert_ne (m : JMap) (k k' : String) (v : JValue)
    (h : k' ≠ k) : lookup (insert m k' v) k = lookup m k := by
  induction m with
  | nil => simp [insert, lookup, h]
  | cons hd t ih =>
    obtain ⟨k'', v''⟩ := hd
    by_cases h' : k'' = k'
    · subst h'
      simp [insert, lookup, h]
    · simp only [insert, if_neg h']
      by_cases h'' : k'' = k
      · simp [lookup, h'']
      · simp [lookup, h'', ih]

theorem insert_insert_same (m : JMap) (k : String) (v : JValue) :
    insert (insert m k v) k v = insert m k v := by
  induction m with
  | nil => simp [insert]
  | cons hd t ih =>
    obtain ⟨k', v'⟩ := hd
    by_cases h : k' = k
    · simp [insert, h]
    · simp [insert, h, ih]

end JMap

/-- `if let Some(x) = o { map.insert(k, f(x)) }`: insert only when the
accessor returned a value. -/
def insertIfSome {α : Type} (m : JMap) (k : String) (o : Option α)
    (f : α → JValue) : JMap :=
  match o with
  | some x => m.insert k (f x)
  | none => m

theorem lookup_insertIfSome_ne {α : Type} (m : JMap) (k k' : String)
    (o : Option α) (f : α → JValue) (h : k' ≠ k) :
    JMap.lookup (insertIfSome m k' o f) k = JMap.lookup m k := by
  cases o with
  | none => rfl
  | some x => exact JMap.lookup_insert_ne m k k' (f x) h

theorem lookup_insertIfSome_self {α : Type} (m : JMap) (k : String)
    (o : Option α) (f : α → JValue) :
    JMap.lookup (insertIfSome m k o f) k =
      match o with
      | some x => some (f x)
      | none => JMap.lookup m k := by
  cases o with
  | none => rfl
  | some x => exact JMap.lookup_insert_self m k (f x)

theorem insertIfSome_insertIfSome_same {α : Type} (m : JMap) (k : String)
    (o : Option α) (f : α → JValue) :
    insertIfSome (insertIfSome m k o f) k o f = insertIfSome m k o f := by
  cases o with
  | none => rfl
  | some x => exact JMap.insert_insert_same m k (f x)

/-- `bitcoin::Denomination`, restricted to the four values the program
produces. -/
inductive Denomination where
  | Bitcoin
  | MilliBitcoin
  | Satoshi
  | MilliSatoshi
deriving DecidableEq, Repr

/-- The unit resolver of `main` (`match args.unit.as_str()`): `"btc"`,
`"mbtc"`, `"msat"` map to their denominations and anything else falls
through to `Satoshi`. -/
def resolveUnit (s : String) : Denomination :=
  if s = "btc" then .Bitcoin
  else if s = "mbtc" then .MilliBitcoin
  else if s = "msat" then .MilliSatoshi
  else .Satoshi

/-- The external parser's amount, at millisatoshi precision.
`to_sat` truncates to whole satoshis. -/
structure WailaAmount where
  msat : Nat
deriving DecidableEq, Repr

def WailaAmount.to_sat (a : WailaAmount) : Nat := a.msat / 1000

/-- The locally imported `bitcoin::Amount`: a whole number of satoshis. -/
structure Amount where
  sat : Nat
deriving DecidableEq, Repr

def Amount.from_sat (n : Nat) : Amount := ⟨n⟩

/-- Zero-pad a numeral string on the left to `w` digits. -/
def padLeftZeros (s : String) (w : Nat) : String :=
  ⟨List.replicate (w - s.data.length) '0' ++ s.data⟩

/-- Render `sat` satoshis as a decimal numeral with `d` fractional
digits (`d = 8` for BTC, `d = 5` for mBTC). -/
def decimalIn (sat : Nat) (d : Nat) : String :=
  toString (sat / 10 ^ d) ++ "." ++ padLeftZeros (toString (sat % 10 ^ d)) d

/-- `Amount::to_string_with_denomination`: the amount rendered as text in
the chosen denomination, with the denomination suffix. -/
def Amount.to_string_with_denomination (a : Amount) (d : Denomination) :
    String :=
  match d with
  | .Bitcoin => decimalIn a.sat 8 ++ " BTC"
  | .MilliBitcoin => decimalIn a.sat 5 ++ " mBTC"
  | .Satoshi => toString a.sat ++ " satoshi"
  | .MilliSatoshi => toString (a.sat * 1000) ++ " msat"

/-! ## Hexadecimal encoding of x-only public keys

Both the parser's nostr key and the locally imported `XOnlyPublicKey` are
32-byte x-only secp256k1 keys; the program converts between the two crate
versions through the canonical lowercase 64-digit hex string. -/

/-- The lowercase hex digit for `n < 16`. -/
def hexChar (n : Nat) : Char :=
  if n < 10 then Char.ofNat (48 + n) else Char.ofNat (87 + n)

/-- The value of a lowercase hex digit, `none` on any other character. -/
def hexCharVal (c : Char) : Option Nat :=
  if 48 ≤ c.toNat ∧ c.toNat ≤ 57 then some (c.toNat - 48)
  else if 97 ≤ c.toNat ∧ c.toNat ≤ 102 then some (c.toNat - 87)
  else none

/-- `w` hex digits of `n`, most significant first (zero padded). -/
def toHexChars : Nat → Nat → List Char
  | 0, _ => []
  | w + 1, n => toHexChars w (n / 16) ++ [hexChar (n % 16)]

/-- Accumulating hex parser: fails on the first non-hex character. -/
def hexValAux : Nat → List Char → Option Nat
  | acc, [] => some acc
  | acc, c :: cs =>
    match hexCharVal c with
    | some v => hexValAux (acc * 16 + v) cs
    | none => none

theorem hexCharVal_hexChar (d : Nat) (h : d < 16) :
    hexCharVal (hexChar d) = some d := by
  interval_cases d <;> decide

theorem toHexChars_length (w n : Nat) : (toHexChars w n).length = w := by
  induction w generalizing n with
  | zero => rfl
  | succ w ih => simp [toHexChars, ih]

theorem hexValAux_append (acc : Nat) (xs ys : List Char) :
    hexValAux acc (xs ++ ys) =
      match hexValAux acc xs with
      | some n => hexValAux n ys
      | none => none := by
  induction xs generalizing acc with
  | nil => rfl
  | cons c cs ih =>
    simp only [List.cons_append, hexValAux]
    cases hexCharVal c with
    | none => rfl
    | some v => exact ih _

theorem mod_mul_sixteen (q r m : Nat) (hm : 0 < m) (hr : r < 16) :
    (16 * q + r) % (16 * m) = 16 * (q % m) + r := by
  have h1 : q % m < m := Nat.mod_lt _ hm
  have hlt : 16 * (q % m) + r < 16 * m := by omega
  conv_lhs => rw [← Nat.div_add_mod q m]
  rw [show 16 * (m * (q / m) + q % m) + r
        = 16 * (q % m) + r + 16 * m * (q / m) by ring,
    Nat.add_mul_mod_self_left, Nat.mod_eq_of_lt hlt]

theorem hexValAux_toHexChars (w : Nat) (acc n : Nat) :
    hexValAux acc (toHexChars w n) = some (acc * 16 ^ w + n % 16 ^ w) := by
  induction w generalizing acc n with
  | zero => simp [toHexChars, hexValAux, Nat.mod_one]
  | succ w ih =>
    have hlt : n % 16 < 16 := Nat.mod_lt _ (by omega)
    simp only [toHexChars, hexValAux_append, ih]
    simp only [hexValAux, hexCharVal_hexChar _ hlt]
    congr 1
    have hsplit : n % 16 ^ (w + 1) = 16 * (n / 16 % 16 ^ w) + n % 16 := by
      conv_lhs => rw [← Nat.div_add_mod n 16]
      rw [pow_succ, show (16 : Nat) ^ w * 16 = 16 * 16 ^ w by ring]
      exact mod_mul_sixteen (n / 16) (n % 16) (16 ^ w)
        (pow_pos (by omega) w) (Nat.mod_lt _ (by omega))
    rw [hsplit]
    ring

theorem hexCharVal_lt (c : Char) (v : Nat) (h : hexCharVal c = some v) :
    v < 16 := by
  unfold hexCharVal at h
  split at h
  · simp only [Option.some.injEq] at h
    omega
  · split at h
    · simp only [Option.some.injEq] at h
      omega
    · exact absurd h (by simp)

theorem hexValAux_lt (acc : Nat) (cs : List Char) (n : Nat)
    (h : hexValAux acc cs = some n) : n < (acc + 1) * 16 ^ cs.length := by
  induction cs generalizing acc with
  | nil =>
    simp [hexValAux] at h
    simp [h.symm]
  | cons c cs ih =>
    simp only [hexValAux] at h
    cases hv : hexCharVal c with
    | none => rw [hv] at h; exact absurd h (by simp)
    | some v =>
      rw [hv] at h
      have hvlt : v < 16 := hexCharVal_lt c v hv
      have := ih (acc * 16 + v) h
      calc n < (acc * 16 + v + 1) * 16 ^ cs.length := this
        _ ≤ ((acc + 1) * 16) * 16 ^ cs.length := by
            apply Nat.mul_le_mul_right
            omega
        _ = (acc + 1) * 16 ^ (c :: cs).length := by
            simp [List.length_cons, Nat.pow_succ]
            ring

/-- A 32-byte x-only secp256k1 public key, identified with its 256-bit
value (the valid-key set of both crate versions). -/
structure XOnlyPublicKey where
  val : Nat
  isLt : val < 16 ^ 64
deriving DecidableEq

/-- `XOnlyPublicKey::to_string` (and the parser key's `to_string`): the
canonical lowercase 64-digit hex rendering. -/
def XOnlyPublicKey.to_string (k : XOnlyPublicKey) : String :=
  ⟨toHexChars 64 k.val⟩

/-- `XOnlyPublicKey::from_str`: parses exactly the 64-digit lowercase hex
strings (for such a string the parsed value is below `16 ^ 64`, see
`hexValAux_lt`; the bound is carried in the result). -/
def XOnlyPublicKey.from_str (s : String) : Option XOnlyPublicKey :=
  match hexValAux 0 s.data with
  | some n =>
    if h : s.data.length = 64 ∧ n < 16 ^ 64 then some ⟨n, h.2⟩ else none
  | none => none

theorem from_str_to_string (k : XOnlyPublicKey) :
    XOnlyPublicKey.from_str k.to_string = some k := by
  obtain ⟨v, hv⟩ := k
  have hval : hexValAux 0 (toHexChars 64 v) = some v := by
    rw [hexValAux_toHexChars, Nat.zero_mul, Nat.zero_add,
      Nat.mod_eq_of_lt hv]
  simp only [XOnlyPublicKey.from_str, XOnlyPublicKey.to_string, hval]
  rw [dif_pos ⟨toHexChars_length 64 v, hv⟩]

/-! ## The external payment parser's interface -/

/-- The eight variants of `bitcoin_waila::PaymentParams`. -/
inductive Variant where
  | OnChain
  | Bip21
  | Bolt11
  | Bolt12
  | NodePubkey
  | LnUrl
  | LightningAddress
  | Nostr
deriving DecidableEq, Repr

/-- Interface model of a successfully parsed `PaymentParams` value: its
variant together with the results of the ten accessors the program calls.
String-typed accessor results are the strings obtained via `to_string()`. -/
structure PaymentParams where
  variant : Variant
  network : Option String
  address : Option String
  invoice : Option String
  node_pubkey : Option String
  amount : Option WailaAmount
  memo : Option String
  lnurl : Option String
  lightning_address : Option String
  payjoin_endpoint : Option String
  nostr_pubkey : Option XOnlyPublicKey

/-- The external NIP-19 encoder: a fallible `to_bech32`. The development
is parameterised over it; the error payload is its message text. -/
structure Nip19 where
  toBech32 : XOnlyPublicKey → Except String String

/-! ## The program -/

/-- The parsed command-line arguments (the `Args` struct). -/
structure Args where
  all : Bool
  nostr : Bool
  flatten : Bool
  unit : String
  query : String

/-- The program's `Error` enum; the payloads are the underlying error
texts. -/
inductive Error where
  | Serialize (e : String)
  | Bech32 (e : String)
deriving DecidableEq, Repr

/-- Outcome of a fallible computation that may also panic (`expect`). -/
inductive RunResult (α : Type) where
  | ok (v : α)
  | err (e : Error)
  | panicked (msg : String)

/-- Outcome of one invocation of `main`: `bailed msg` is the `bail!`
macro (print `msg`, exit code 1, no record); `failed e` is `main`
returning `Err(e)`; `record m` is a successful run whose assembled map is
`m` (its JSON text serialization is out of scope). -/
inductive MainResult where
  | bailed (msg : String)
  | failed (e : Error)
  | panicked (msg : String)
  | record (m : JMap)

/-- The `match payment_params` arm of `main`: variant to kind tag. -/
def kindOf (v : Variant) : String :=
  match v with
  | .OnChain => "OnChain"
  | .Bip21 => "UnifiedUri"
  | .Bolt11 => "Invoice"
  | .Bolt12 => "Offer"
  | .NodePubkey => "PublicKey"
  | .LnUrl => "LnUrl"
  | .LightningAddress => "LnAddress"
  | .Nostr => "NostrValue"

/-- Render an optional string accessor result for the full shape:
`Value::String` when present, `json!(null)` otherwise. -/
def optStr (o : Option String) : JValue :=
  match o with
  | some s => .str s
  | none => .null

/-- The amount rendering both builders perform: `amt.to_sat()`, then
`Amount::from_sat`, then `to_string_with_denomination`. -/
def renderAmount (amt : WailaAmount) (unit : Denomination) : String :=
  Amount.to_string_with_denomination (Amount.from_sat amt.to_sat) unit

/-- The full-shape amount slot: the rendered amount when present, an
explicit null otherwise. -/
def optAmount (o : Option WailaAmount) (unit : Denomination) : JValue :=
  match o with
  | some amt => .str (renderAmount amt unit)
  | none => .null

/-- `build`: construct a json map with all keys (absent accessor results
become explicit nulls). -/
def build (payment_params : PaymentParams) (map : JMap)
    (unit : Denomination) : JMap :=
  let map := map.insert "network" (optStr payment_params.network)
  let map := map.insert "address" (optStr payment_params.address)
  let map := map.insert "invoice" (optStr payment_params.invoice)
  let map := map.insert "pubkey" (optStr payment_params.node_pubkey)
  let map := map.insert "amount" (optAmount payment_params.amount unit)
  let map := map.insert "memo" (optStr payment_params.memo)
  let map := map.insert "lnurl" (optStr payment_params.lnurl)
  let map := map.insert "lnaddr" (optStr payment_params.lightning_address)
  let map := map.insert "payjoin" (optStr payment_params.payjoin_endpoint)
  map

/-- `build_sparse`: construct a json map with non-null fields only.
The `lnurl` field is inserted twice, transcribing the duplicated
`if let Some(lnurl) = payment_params.lnurl()` block of the source. -/
def build_sparse (payment_params : PaymentParams) (map : JMap)
    (unit : Denomination) : JMap :=
  let map := insertIfSome map "network" payment_params.network .str
  let map := insertIfSome map "address" payment_params.address .str
  let map := insertIfSome map "invoice" payment_params.invoice .str
  let map := insertIfSome map "pubkey" payment_params.node_pubkey .str
  let map := insertIfSome map "amount" payment_params.amount
    (fun amt => .str (renderAmount amt unit))
  let map := insertIfSome map "memo" payment_params.memo .str
  let map := insertIfSome map "lnurl" payment_params.lnurl .str
  let map := insertIfSome map "lnurl" payment_params.lnurl .str
  let map := insertIfSome map "lnaddr" payment_params.lightning_address .str
  let map := insertIfSome map "payjoin" payment_params.payjoin_endpoint .str
  map

/-- `parse_nostr`: both encodings of the parsed value's nostr pubkey, an
explicit null when there is none; `expect("same value")` is a panic. -/
def parse_nostr (env : Nip19) (payment_params : PaymentParams) :
    RunResult JValue :=
  match payment_params.nostr_pubkey with
  | none => .ok .null
  | some k =>
    match XOnlyPublicKey.from_str k.to_string with
    | none => .panicked "same value"
    | some mykey =>
      match env.toBech32 mykey with
      | .error e => .err (.Bech32 e)
      | .ok bech32 =>
        let hex := k.to_string
        let obj : JMap := []
        let obj := obj.insert "hex" (.str hex)
        let obj := obj.insert "bech32" (.str bech32)
        .ok (.obj obj)

/-- `main` after argument parsing, parameterised over the external parser
(`PaymentParams::from_str`) and the NIP-19 encoder. -/
def mainRun (env : Nip19) (from_str : String → Option PaymentParams)
    (args : Args) : MainResult :=
  let s := args.query
  let unit := resolveUnit args.unit
  match from_str s with
  | none => .bailed "not a bitcoin string"
  | some payment_params =>
    let map : JMap := []
    let kind := kindOf payment_params.variant
    if kind = "NostrValue" ∧ args.nostr = false then
      .bailed "not a bitcoin string"
    else
      let map := map.insert "kind" (.str kind)
      let map :=
        if args.all then build payment_params map unit
        else build_sparse payment_params map unit
      if args.nostr then
        match parse_nostr env payment_params with
        | .panicked msg => .panicked msg
        | .err e => .failed e
        | .ok v => .record (map.insert "nostr" v)
      else .record map

/-! ## Per-key lookup lemmas for the two builders -/

theorem insertIfSome_some {α : Type} (m : JMap) (k : String) (x : α)
    (f : α → JValue) : insertIfSome m k (some x) f = m.insert k (f x) := rfl

theorem insertIfSome_none {α : Type} (m : JMap) (k : String)
    (f : α → JValue) : insertIfSome m k (none : Option α) f = m := rfl

theorem full_network (p : PaymentParams) (m : JMap) (u : Denomination) :
    JMap.lookup (build p m u) "network" = some (optStr p.network) := by
  simp [build, JMap.lookup_insert_ne, JMap.lookup_insert_self]

theorem sparse_network_some (p : PaymentParams) (m : JMap)
    (u : Denomination) (s : String) (h : p.network = some s) :
    JMap.lookup (build_sparse p m u) "network" = some (.str s) := by
  simp [build_sparse, h, insertIfSome_some, lookup_insertIfSome_ne,
    JMap.lookup_insert_self]

theorem sparse_network_none (p : PaymentParams) (m : JMap)
    (u : Denomination) (h : p.network = none) :
    JMap.lookup (build_sparse p m u) "network" = JMap.lookup m "network" := by
  simp [build_sparse, h, insertIfSome_none, lookup_insertIfSome_ne]

theorem full_address (p : PaymentParams) (m : JMap) (u : Denomination) :
    JMap.lookup (build p m u) "address" = some (optStr p.address) := by
  simp [build, JMap.lookup_insert_ne, JMap.lookup_insert_self]

theorem full_invoice (p : PaymentParams) (m : JMap) (u : Denomination) :
    JMap.lookup (build p m u) "invoice" = some (optStr p.invoice) := by
  simp [build, JMap.lookup_insert_ne, JMap.lookup_insert_self]

theorem full_pubkey (p : PaymentParams) (m : JMap) (u : Denomination) :
    JMap.lookup (build p m u) "pubkey" = some (optStr p.node_pubkey) := by
  simp [build, JMap.lookup_insert_ne, JMap.lookup_insert_self]

theorem full_amount (p : PaymentParams) (m : JMap) (u : Denomination) :
    JMap.lookup (build p m u) "amount" = some (optAmount p.amount u) := by
  simp [build, JMap.lookup_insert_ne, JMap.lookup_insert_self]

theorem full_memo (p : PaymentParams) (m : JMap) (u : Denomination) :
    JMap.lookup (build p m u) "memo" = some (optStr p.memo) := by
  simp [build, JMap.lookup_insert_ne, JMap.lookup_insert_self]

theorem full_lnurl (p : PaymentParams) (m : JMap) (u : Denomination) :
    JMap.lookup (build p m u) "lnurl" = some (optStr p.lnurl) := by
  simp [build, JMap.lookup_insert_ne, JMap.lookup_insert_self]

theorem full_lnaddr (p : PaymentParams) (m : JMap) (u : Denomination) :
    JMap.lookup (build p m u) "lnaddr" =
      some (optStr p.lightning_address) := by
  simp [build, JMap.lookup_insert_ne, JMap.lookup_insert_self]

theorem full_payjoin (p : PaymentParams) (m : JMap) (u : Denomination) :
    JMap.lookup (build p m u) "payjoin" =
      some (optStr p.payjoin_endpoint) := by
  simp [build, JMap.lookup_insert_ne, JMap.lookup_insert_self]

theorem full_nostr_passthrough (p : PaymentParams) (m : JMap)
    (u : Denomination) :
    JMap.lookup (build p m u) "nostr" = JMap.lookup m "nostr" := by
  simp [build, JMap.lookup_insert_ne]

theorem sparse_address_some (p : PaymentParams) (m : JMap)
    (u : Denomination) (s : String) (h : p.address = some s) :
    JMap.lookup (build_sparse p m u) "address" = some (.str s) := by
  simp [build_sparse, h, insertIfSome_some, lookup_insertIfSome_ne,
    JMap.lookup_insert_self]

theorem sparse_address_none (p : PaymentParams) (m : JMap)
    (u : Denomination) (h : p.address = none) :
    JMap.lookup (build_sparse p m u) "address" = JMap.lookup m "address" := by
  simp [build_sparse, h, insertIfSome_none, lookup_insertIfSome_ne]

theorem sparse_invoice_some (p : PaymentParams) (m : JMap)
    (u : Denomination) (s : String) (h : p.invoice = some s) :
    JMap.lookup (build_sparse p m u) "invoice" = some (.str s) := by
  simp [build_sparse, h, insertIfSome_some, lookup_insertIfSome_ne,
    JMap.lookup_insert_self]

theorem sparse_invoice_none (p : PaymentParams) (m : JMap)
    (u : Denomination) (h : p.invoice = none) :
    JMap.lookup (build_sparse p m u) "invoice" = JMap.lookup m "invoice" := by
  simp [build_sparse, h, insertIfSome_none, lookup_insertIfSome_ne]

theorem sparse_pubkey_some (p : PaymentParams) (m : JMap)
    (u : Denomination) (s : String) (h : p.node_pubkey = some s) :
    JMap.lookup (build_sparse p m u) "pubkey" = some (.str s) := by
  simp [build_sparse, h, insertIfSome_some, lookup_insertIfSome_ne,
    JMap.lookup_insert_self]

theorem sparse_pubkey_none (p : PaymentParams) (m : JMap)
    (u : Denomination) (h : p.node_pubkey = none) :
    JMap.lookup (build_sparse p m u) "pubkey" = JMap.lookup m "pubkey" := by
  simp [build_sparse, h, insertIfSome_none, lookup_insertIfSome_ne]

theorem sparse_amount_some (p : PaymentParams) (m : JMap)
    (u : Denomination) (amt : WailaAmount) (h : p.amount = some amt) :
    JMap.lookup (build_sparse p m u) "amount" =
      some (.str (renderAmount amt u)) := by
  simp [build_sparse, h, insertIfSome_some, lookup_insertIfSome_ne,
    JMap.lookup_insert_self]

theorem sparse_amount_none (p : PaymentParams) (m : JMap)
    (u : Denomination) (h : p.amount = none) :
    JMap.lookup (build_sparse p m u) "amount" = JMap.lookup m "amount" := by
  simp [build_sparse, h, insertIfSome_none, lookup_insertIfSome_ne]

theorem sparse_memo_some (p : PaymentParams) (m : JMap)
    (u : Denomination) (s : String) (h : p.memo = some s) :
    JMap.lookup (build_sparse p m u) "memo" = some (.str s) := by
  simp [build_sparse, h, insertIfSome_some, lookup_insertIfSome_ne,
    JMap.lookup_insert_self]

theorem sparse_memo_none (p : PaymentParams) (m : JMap)
    (u : Denomination) (h : p.memo = none) :
    JMap.lookup (build_sparse p m u) "memo" = JMap.lookup m "memo" := by
  simp [build_sparse, h, insertIfSome_none, lookup_insertIfSome_ne]

theorem sparse_lnurl_some (p : PaymentParams) (m : JMap)
    (u : Denomination) (s : String) (h : p.lnurl = some s) :
    JMap.lookup (build_sparse p m u) "lnurl" = some (.str s) := by
  simp [build_sparse, h, insertIfSome_some, lookup_insertIfSome_ne,
    JMap.lookup_insert_self]

theorem sparse_lnurl_none (p : PaymentParams) (m : JMap)
    (u : Denomination) (h : p.lnurl = none) :
    JMap.lookup (build_sparse p m u) "lnurl" = JMap.lookup m "lnurl" := by
  simp [build_sparse, h, insertIfSome_none, lookup_insertIfSome_ne]

theorem sparse_lnaddr_some (p : PaymentParams) (m : JMap)
    (u : Denomination) (s : String) (h : p.lightning_address = some s) :
    JMap.lookup (build_sparse p m u) "lnaddr" = some (.str s) := by
  simp [build_sparse, h, insertIfSome_some, lookup_insertIfSome_ne,
    JMap.lookup_insert_self]

theorem sparse_lnaddr_none (p : PaymentParams) (m : JMap)
    (u : Denomination) (h : p.lightning_address = none) :
    JMap.lookup (build_sparse p m u) "lnaddr" = JMap.lookup m "lnaddr" := by
  simp [build_sparse, h, insertIfSome_none, lookup_insertIfSome_ne]

theorem sparse_payjoin_some (p : PaymentParams) (m : JMap)
    (u : Denomination) (s : String) (h : p.payjoin_endpoint = some s) :
    JMap.lookup (build_sparse p m u) "payjoin" = some (.str s) := by
  simp [build_sparse, h, insertIfSome_some, lookup_insertIfSome_ne,
    JMap.lookup_insert_self]

theorem sparse_payjoin_none (p : PaymentParams) (m : JMap)
    (u : Denomination) (h : p.payjoin_endpoint = none) :
    JMap.lookup (build_sparse p m u) "payjoin" = JMap.lookup m "payjoin" := by
  simp [build_sparse, h, insertIfSome_none, lookup_insertIfSome_ne]

theorem sparse_nostr_passthrough (p : PaymentParams) (m : JMap)
    (u : Denomination) :
    JMap.lookup (build_sparse p m u) "nostr" = JMap.lookup m "nostr" := by
  simp [build_sparse, lookup_insertIfSome_ne]

/-- The map `main` seeds the builders with: empty except the `kind` tag. -/
def kindSeed (kt : String) : JMap := JMap.insert [] "kind" (.str kt)

theorem lookup_kindSeed_ne (kt key : String) (h : "kind" ≠ key) :
    JMap.lookup (kindSeed kt) key = none := by
  simp [kindSeed, JMap.insert, JMap.lookup, h]

/-! ## Concrete fixtures -/

/-- NIP-19 environment whose encoder always succeeds. -/
def envOk : Nip19 := ⟨fun _ => .ok "npub1bech32value"⟩

/-- NIP-19 environment whose encoder always fails. -/
def envFail : Nip19 := ⟨fun _ => .error "bech32 failure"⟩

/-- A concrete x-only public key. -/
def k0 : XOnlyPublicKey := ⟨7, by norm_num⟩

/-- A parsed payment with the given variant and every accessor absent. -/
def emptyParams (v : Variant) : PaymentParams :=
  ⟨v, none, none, none, none, none, none, none, none, none, none⟩

/-- A parsed nostr value exposing the key `k0`. -/
def pNostr : PaymentParams :=
  { emptyParams .Nostr with nostr_pubkey := some k0 }

/-- A parsed bolt11 invoice carrying 1500 millisatoshis. -/
def pAmount : PaymentParams :=
  { emptyParams .Bolt11 with amount := some ⟨1500⟩ }

/-- An external parser that rejects every string. -/
def fsNone : String → Option PaymentParams := fun _ => none

/-- An external parser that returns `p` for every string. -/
def fsOf (p : PaymentParams) : String → Option PaymentParams :=
  fun _ => some p

/-- Baseline arguments: sparse shape, no nostr, satoshi unit. -/
def argsBase : Args := ⟨false, false, false, "sat", "notabitcoinstring"⟩

/-- Arguments requesting nostr exposure. -/
def argsNostr : Args := ⟨false, true, false, "sat", "some-input"⟩

/-! ## Claims -/

/-- C4: the unit resolver is a total function with no error path, mapping
exactly `"btc"` to `Bitcoin`, `"mbtc"` to `MilliBitcoin`, `"msat"` to
`MilliSatoshi`, and every other string (including `"sat"`, unrecognized
tokens and case variants) to `Satoshi`. -/
theorem unit_resolver_total :
    resolveUnit "btc" = .Bitcoin ∧
    resolveUnit "mbtc" = .MilliBitcoin ∧
    resolveUnit "msat" = .MilliSatoshi ∧
    resolveUnit "sat" = .Satoshi ∧
    resolveUnit "xyz" = .Satoshi ∧
    resolveUnit "BTC" = .Satoshi ∧
    (∀ s : String, s ≠ "btc" → s ≠ "mbtc" → s ≠ "msat" →
      resolveUnit s = .Satoshi) := by
  refine ⟨rfl, rfl, rfl, rfl, rfl, rfl, ?_⟩
  intro s h1 h2 h3
  simp [resolveUnit, h1, h2, h3]

theorem unit_resolver_total_witness : resolveUnit "foo" = .Satoshi :=
  unit_resolver_total.2.2.2.2.2.2 "foo" (by decide) (by decide) (by decide)

/-- The sparse builder as the spec's replacement design describes it: the
LNURL lookup performed a single time (all else unchanged). -/
def build_sparse_single (payment_params : PaymentParams) (map : JMap)
    (unit : Denomination) : JMap :=
  let map := insertIfSome map "network" payment_params.network .str
  let map := insertIfSome map "address" payment_params.address .str
  let map := insertIfSome map "invoice" payment_params.invoice .str
  let map := insertIfSome map "pubkey" payment_params.node_pubkey .str
  let map := insertIfSome map "amount" payment_params.amount
    (fun amt => .str (renderAmount amt unit))
  let map := insertIfSome map "memo" payment_params.memo .str
  let map := insertIfSome map "lnurl" payment_params.lnurl .str
  let map := insertIfSome map "lnaddr" payment_params.lightning_address .str
  let map := insertIfSome map "payjoin" payment_params.payjoin_endpoint .str
  map

/-- C8: the duplicated LNURL lookup in the sparse builder is
observationally redundant: for every parsed value, seed map and
denomination, `build_sparse` as written produces exactly the same map as
the variant that performs the lnurl lookup and insertion once. -/
theorem lnurl_duplication_redundant (p : PaymentParams) (m : JMap)
    (u : Denomination) : build_sparse p m u = build_sparse_single p m u := by
  simp only [build_sparse, build_sparse_single,
    insertIfSome_insertIfSome_same]

/-- C9: before rendering, the amount is converted to whole satoshis
(`to_sat` then `from_sat`), so any sub-satoshi component of the underlying
amount is discarded: in both shapes the amount slot renders
`Amount.from_sat amt.to_sat`, whose millisatoshi value is
`amt.msat - amt.msat % 1000`, and even in the millisatoshi denomination
the rendered numeral `amt.to_sat * 1000` is an integer number of
satoshis. -/
theorem amount_truncated_to_satoshis (p : PaymentParams) (m : JMap)
    (u : Denomination) (amt : WailaAmount) (h : p.amount = some amt) :
    JMap.lookup (build p m u) "amount" =
      some (.str (renderAmount amt u)) ∧
    JMap.lookup (build_sparse p m u) "amount" =
      some (.str (renderAmount amt u)) ∧
    renderAmount amt u =
      Amount.to_string_with_denomination (Amount.from_sat amt.to_sat) u ∧
    1000 * (Amount.from_sat amt.to_sat).sat = amt.msat - amt.msat % 1000 ∧
    renderAmount amt .MilliSatoshi = toString (amt.to_sat * 1000) ++ " msat" ∧
    1000 ∣ amt.to_sat * 1000 := by
  refine ⟨?_, sparse_amount_some p m u amt h, rfl, ?_, rfl, ⟨amt.to_sat, Nat.mul_comm _ _⟩⟩
  · rw [full_amount, h]
    rfl
  · simp only [Amount.from_sat, WailaAmount.to_sat]
    omega

theorem amount_truncated_to_satoshis_witness :
    JMap.lookup (build pAmount [] .MilliSatoshi) "amount" =
      some (.str (renderAmount ⟨1500⟩ .MilliSatoshi)) ∧
    JMap.lookup (build_sparse pAmount [] .MilliSatoshi) "amount" =
      some (.str (renderAmount ⟨1500⟩ .MilliSatoshi)) ∧
    renderAmount ⟨1500⟩ .MilliSatoshi =
      Amount.to_string_with_denomination
        (Amount.from_sat (WailaAmount.to_sat ⟨1500⟩)) .MilliSatoshi ∧
    1000 * (Amount.from_sat (WailaAmount.to_sat ⟨1500⟩)).sat =
      1500 - 1500 % 1000 ∧
    renderAmount ⟨1500⟩ .MilliSatoshi =
      toString (WailaAmount.to_sat ⟨1500⟩ * 1000) ++ " msat" ∧
    1000 ∣ WailaAmount.to_sat ⟨1500⟩ * 1000 :=
  amount_truncated_to_satoshis pAmount [] .MilliSatoshi ⟨1500⟩ rfl

/-- C10: re-parsing the string form of an exposed nostr public key as an
`XOnlyPublicKey` never fails, so the `expect("same value")` panic branch
of `parse_nostr` is unreachable and its only failure mode is the bech32
encoding error. -/
theorem nostr_reparse_never_panics (p : PaymentParams)
    (k : XOnlyPublicKey) (h : p.nostr_pubkey = some k) :
    XOnlyPublicKey.from_str k.to_string = some k ∧
    (∀ (env : Nip19) (msg : String), parse_nostr env p ≠ .panicked msg) ∧
    (∀ (env : Nip19) (e : Error), parse_nostr env p = .err e →
      ∃ s, e = Error.Bech32 s) := by
  refine ⟨from_str_to_string k, ?_, ?_⟩
  · intro env msg
    simp only [parse_nostr, h, from_str_to_string]
    cases env.toBech32 k <;> simp
  · intro env e he
    simp only [parse_nostr, h, from_str_to_string] at he
    cases hb : env.toBech32 k with
    | error s =>
      rw [hb] at he
      simp only [RunResult.err.injEq] at he
      exact ⟨s, he.symm⟩
    | ok b =>
      rw [hb] at he
      exact absurd he (by simp)

theorem nostr_reparse_never_panics_witness :
    XOnlyPublicKey.from_str (XOnlyPublicKey.to_string k0) = some k0 :=
  (nostr_reparse_never_panics pNostr k0 rfl).1

/-- C1 (counterexample to the claimed message text): on an input the
external parser rejects, the program bails with the diagnostic
`"not a bitcoin string"`, which is not the claimed
`"not a known bitcoin string"`. -/
theorem parse_failure_message_counterexample :
    mainRun envOk fsNone argsBase = .bailed "not a bitcoin string" ∧
    "not a bitcoin string" ≠ "not a known bitcoin string" :=
  ⟨rfl, by decide⟩

/-- C1 (amended): for every input string that the external parser cannot
interpret, the program reports a parse failure carrying the fixed
diagnostic message `"not a bitcoin string"` and terminates unsuccessfully,
producing no record. -/
theorem parse_failure_bails (env : Nip19)
    (fs : String → Option PaymentParams) (args : Args)
    (h : fs args.query = none) :
    mainRun env fs args = .bailed "not a bitcoin string" := by
  simp only [mainRun, h]

theorem parse_failure_bails_witness :
    mainRun envOk fsNone argsBase = .bailed "not a bitcoin string" :=
  parse_failure_bails envOk fsNone argsBase rfl

/-- C2: the classifier's mapping from parser result variants to kind tags
is total and exhaustive: each of the eight `PaymentParams` variants maps
to exactly its own one of the eight tags, every variant's tag is among the
eight, and no tag (no record at all) is produced when the parser rejects
the input. -/
theorem kind_mapping_exhaustive :
    (kindOf .OnChain = "OnChain" ∧ kindOf .Bip21 = "UnifiedUri" ∧
     kindOf .Bolt11 = "Invoice" ∧ kindOf .Bolt12 = "Offer" ∧
     kindOf .NodePubkey = "PublicKey" ∧ kindOf .LnUrl = "LnUrl" ∧
     kindOf .LightningAddress = "LnAddress" ∧
     kindOf .Nostr = "NostrValue") ∧
    (∀ v : Variant, kindOf v ∈
      (["OnChain", "UnifiedUri", "Invoice", "Offer", "PublicKey", "LnUrl",
        "LnAddress", "NostrValue"] : List String)) ∧
    (∀ (env : Nip19) (fs : String → Option PaymentParams) (args : Args),
      fs args.query = none → ∀ m : JMap,
        mainRun env fs args ≠ .record m) := by
  refine ⟨⟨rfl, rfl, rfl, rfl, rfl, rfl, rfl, rfl⟩, ?_, ?_⟩
  · intro v
    cases v <;> simp [kindOf]
  · intro env fs args h m
    simp only [mainRun, h]
    intro hcon
    exact MainResult.noConfusion hcon

theorem kind_mapping_exhaustive_witness :
    mainRun envOk fsNone argsBase ≠ .record [] :=
  kind_mapping_exhaustive.2.2 envOk fsNone argsBase rfl []

/-- C5: a parsed value classified `NostrValue` without requested nostr
exposure is treated as a parse failure (the program bails with the
parse-failure diagnostic and produces no record); with nostr exposure
requested the invocation proceeds (it never bails). -/
theorem nostr_gate (env : Nip19) (fs : String → Option PaymentParams)
    (args : Args) (p : PaymentParams) (h : fs args.query = some p)
    (hv : p.variant = .Nostr) :
    (args.nostr = false →
      mainRun env fs args = .bailed "not a bitcoin string") ∧
    (args.nostr = true →
      ∀ msg : String, mainRun env fs args ≠ .bailed msg) := by
  constructor
  · intro hn
    simp [mainRun, h, hv, kindOf, hn]
  · intro hn msg
    simp only [mainRun, h, hn]
    rw [if_neg (by simp)]
    cases ha : args.all <;> simp only [Bool.false_eq_true, if_false, if_true]
    all_goals
      cases hp : parse_nostr env p <;> intro hcon <;>
        exact MainResult.noConfusion hcon

theorem nostr_gate_witness :
    mainRun envOk (fsOf pNostr) argsBase = .bailed "not a bitcoin string" :=
  (nostr_gate envOk (fsOf pNostr) argsBase pNostr rfl rfl).1 rfl

/-- C7: whenever the bech32 re-encoding of an exposed identity key fails,
the whole invocation fails with a typed `EncodingFailure` (`Bech32`) error
and produces no record. -/
theorem encoding_failure_fatal (env : Nip19)
    (fs : String → Option PaymentParams) (args : Args) (p : PaymentParams)
    (k : XOnlyPublicKey) (e : String) (h : fs args.query = some p)
    (hn : args.nostr = true) (hk : p.nostr_pubkey = some k)
    (hb : env.toBech32 k = .error e) :
    mainRun env fs args = .failed (Error.Bech32 e) := by
  simp only [mainRun, h, hn]
  rw [if_neg (by simp)]
  simp only [parse_nostr, hk, from_str_to_string, hb]
  cases args.all <;> rfl

theorem encoding_failure_fatal_witness :
    mainRun envFail (fsOf pNostr) argsNostr =
      .failed (Error.Bech32 "bech32 failure") :=
  encoding_failure_fatal envFail (fsOf pNostr) argsNostr pNostr k0
    "bech32 failure" rfl rfl rfl rfl

/-- C6: the `nostr` key is inserted into the output record if and only if
nostr exposure was requested, independently of the Full/Sparse shape
selector; its value is the two-field `{hex, bech32}` object when the
parsed value exposes an identity key, and an explicit null otherwise. -/
theorem nostr_key_presence (env : Nip19)
    (fs : String → Option PaymentParams) (args : Args) (p : PaymentParams)
    (m : JMap) (h : fs args.query = some p)
    (hm : mainRun env fs args = .record m) :
    (args.nostr = false → JMap.lookup m "nostr" = none) ∧
    (args.nostr = true →
      (p.nostr_pubkey = none → JMap.lookup m "nostr" = some JValue.null) ∧
      (∀ k : XOnlyPublicKey, p.nostr_pubkey = some k →
        ∃ b : String, env.toBech32 k = .ok b ∧
          JMap.lookup m "nostr" =
            some (.obj [("hex", .str k.to_string),
                        ("bech32", .str b)]))) := by
  simp only [mainRun, h] at hm
  split at hm
  · exact MainResult.noConfusion hm
  · cases hn : args.nostr with
    | false =>
      rw [hn] at hm
      simp only [Bool.false_eq_true, if_false, MainResult.record.injEq]
        at hm
      subst hm
      refine ⟨fun _ => ?_, fun hcon => Bool.noConfusion hcon⟩
      cases args.all with
      | true =>
        simp only [if_true]
        rw [full_nostr_passthrough]
        exact lookup_kindSeed_ne _ _ (by decide)
      | false =>
        simp only [Bool.false_eq_true, if_false]
        rw [sparse_nostr_passthrough]
        exact lookup_kindSeed_ne _ _ (by decide)
    | true =>
      rw [hn] at hm
      simp only [if_true] at hm
      cases hp : parse_nostr env p with
      | panicked msg => rw [hp] at hm; exact MainResult.noConfusion hm
      | err e => rw [hp] at hm; exact MainResult.noConfusion hm
      | ok v =>
        rw [hp] at hm
        simp only [MainResult.record.injEq] at hm
        subst hm
        refine ⟨fun hcon => Bool.noConfusion hcon, fun _ => ⟨?_, ?_⟩⟩
        · intro hk
          simp only [parse_nostr, hk, RunResult.ok.injEq] at hp
          subst hp
          exact JMap.lookup_insert_self _ _ _
        · intro k hk
          simp only [parse_nostr, hk, from_str_to_string] at hp
          cases hb : env.toBech32 k with
          | error e => rw [hb] at hp; exact RunResult.noConfusion hp
          | ok b =>
            rw [hb] at hp
            simp only [RunResult.ok.injEq] at hp
            subst hp
            exact ⟨b, rfl, by rw [JMap.lookup_insert_self]; rfl⟩

theorem nostr_key_presence_witness :
    JMap.lookup [("kind", JValue.str "NostrValue"),
      ("nostr", JValue.obj [("hex", JValue.str k0.to_string),
        ("bech32", JValue.str "npub1bech32value")])] "nostr" =
      some (JValue.obj [("hex", JValue.str k0.to_string),
        ("bech32", JValue.str "npub1bech32value")]) := by
  have h := (nostr_key_presence envOk (fsOf pNostr) argsNostr pNostr _
    rfl rfl).2 rfl
  obtain ⟨b, hb, hl⟩ := h.2 k0 rfl
  simp only [envOk, Except.ok.injEq] at hb
  subst hb
  exact hl

/-- The nine field keys of the output record. -/
def nineKeys : List String :=
  ["network", "address", "invoice", "pubkey", "amount", "memo", "lnurl",
   "lnaddr", "payjoin"]

/-- C3: for every parsed value, kind tag and denomination, the full-shape
record binds all nine field keys (absent slots as explicit null), the
sparse-shape record binds exactly those of the nine whose full value is
non-null, and the two shapes agree on every non-null value. -/
theorem full_sparse_agreement (p : PaymentParams) (u : Denomination)
    (kt : String) (key : String) (hk : key ∈ nineKeys) :
    ∃ v : JValue,
      JMap.lookup (build p (kindSeed kt) u) key = some v ∧
      ((v = JValue.null ∧
        JMap.lookup (build_sparse p (kindSeed kt) u) key = none) ∨
       (v ≠ JValue.null ∧
        JMap.lookup (build_sparse p (kindSeed kt) u) key = some v)) := by
  simp only [nineKeys, List.mem_cons, List.mem_singleton,
    List.not_mem_nil, or_false] at hk
  rcases hk with rfl | rfl | rfl | rfl | rfl | rfl | rfl | rfl | rfl
  · cases hx : p.network with
    | some s =>
      exact ⟨.str s, by simp [full_network, hx, optStr],
        Or.inr ⟨by simp, sparse_network_some p _ u s hx⟩⟩
    | none =>
      refine ⟨.null, by simp [full_network, hx, optStr],
        Or.inl ⟨rfl, ?_⟩⟩
      rw [sparse_network_none p _ u hx]
      exact lookup_kindSeed_ne _ _ (by decide)
  · cases hx : p.address with
    | some s =>
      exact ⟨.str s, by simp [full_address, hx, optStr],
        Or.inr ⟨by simp, sparse_address_some p _ u s hx⟩⟩
    | none =>
      refine ⟨.null, by simp [full_address, hx, optStr],
        Or.inl ⟨rfl, ?_⟩⟩
      rw [sparse_address_none p _ u hx]
      exact lookup_kindSeed_ne _ _ (by decide)
  · cases hx : p.invoice with
    | some s =>
      exact ⟨.str s, by simp [full_invoice, hx, optStr],
        Or.inr ⟨by simp, sparse_invoice_some p _ u s hx⟩⟩
    | none =>
      refine ⟨.null, by simp [full_invoice, hx, optStr],
        Or.inl ⟨rfl, ?_⟩⟩
      rw [sparse_invoice_none p _ u hx]
      exact lookup_kindSeed_ne _ _ (by decide)
  · cases hx : p.node_pubkey with
    | some s =>
      exact ⟨.str s, by simp [full_pubkey, hx, optStr],
        Or.inr ⟨by simp, sparse_pubkey_some p _ u s hx⟩⟩
    | none =>
      refine ⟨.null, by simp [full_pubkey, hx, optStr],
        Or.inl ⟨rfl, ?_⟩⟩
      rw [sparse_pubkey_none p _ u hx]
      exact lookup_kindSeed_ne _ _ (by decide)
  · cases hx : p.amount with
    | some amt =>
      exact ⟨.str (renderAmount amt u), by simp [full_amount, hx, optAmount],
        Or.inr ⟨by simp, sparse_amount_some p _ u amt hx⟩⟩
    | none =>
      refine ⟨.null, by simp [full_amount, hx, optAmount],
        Or.inl ⟨rfl, ?_⟩⟩
      rw [sparse_amount_none p _ u hx]
      exact lookup_kindSeed_ne _ _ (by decide)
  · cases hx : p.memo with
    | some s =>
      exact ⟨.str s, by simp [full_memo, hx, optStr],
        Or.inr ⟨by simp, sparse_memo_some p _ u s hx⟩⟩
    | none =>
      refine ⟨.null, by simp [full_memo, hx, optStr],
        Or.inl ⟨rfl, ?_⟩⟩
      rw [sparse_memo_none p _ u hx]
      exact lookup_kindSeed_ne _ _ (by decide)
  · cases hx : p.lnurl with
    | some s =>
      exact ⟨.str s, by simp [full_lnurl, hx, optStr],
        Or.inr ⟨by simp, sparse_lnurl_some p _ u s hx⟩⟩
    | none =>
      refine ⟨.null, by simp [full_lnurl, hx, optStr],
        Or.inl ⟨rfl, ?_⟩⟩
      rw [sparse_lnurl_none p _ u hx]
      exact lookup_kindSeed_ne _ _ (by decide)
  · cases hx : p.lightning_address with
    | some s =>
      exact ⟨.str s, by simp [full_lnaddr, hx, optStr],
        Or.inr ⟨by simp, sparse_lnaddr_some p _ u s hx⟩⟩
    | none =>
      refine ⟨.null, by simp [full_lnaddr, hx, optStr],
        Or.inl ⟨rfl, ?_⟩⟩
      rw [sparse_lnaddr_none p _ u hx]
      exact lookup_kindSeed_ne _ _ (by decide)
  · cases hx : p.payjoin_endpoint with
    | some s =>
      exact ⟨.str s, by simp [full_payjoin, hx, optStr],
        Or.inr ⟨by simp, sparse_payjoin_some p _ u s hx⟩⟩
    | none =>
      refine ⟨.null, by simp [full_payjoin, hx, optStr],
        Or.inl ⟨rfl, ?_⟩⟩
      rw [sparse_payjoin_none p _ u hx]
      exact lookup_kindSeed_ne _ _ (by decide)

theorem full_sparse_agreement_witness :
    ∃ v : JValue,
      JMap.lookup (build (emptyParams .OnChain) (kindSeed "OnChain")
        .Satoshi) "address" = some v ∧
      ((v = JValue.null ∧
        JMap.lookup (build_sparse (emptyParams .OnChain)
          (kindSeed "OnChain") .Satoshi) "address" = none) ∨
       (v ≠ JValue.null ∧
        JMap.lookup (build_sparse (emptyParams .OnChain)
          (kindSeed "OnChain") .Satoshi) "address" = some v)) :=
  full_sparse_agreement (emptyParams .OnChain) .Satoshi "OnChain" "address"
    (by decide)
